import Mathlib

/-!
Verification of the ai-c-test-generator core against its specification.

The Python sources (`validator.py`, `generator.py`, `navigator.py`) are
shallowly embedded below: pure fragments become Lean functions on
`List Char` / `String`, `Nat` and lists; Python exceptions become explicit
sum/`Except` values; the remote model backend becomes an oracle function.
Strings are modelled as their ASCII character lists (the repository only
processes C source text).
-/

namespace AiCTestGen

/-! ## Data model

`ValidationResult` mirrors the dict built at the top of
`TestValidator.validate_test_file` (validator.py lines 23-32).
Issue strings are modelled as an inductive so that distinct issue
messages stay distinguishable; `NumLit` models a captured decimal
literal `d1.d2` exactly, as `mantissa / 10 ^ scale` (the regex
`(\d+\.?\d*)` captures digits and an optional fraction only).
-/

structure NumLit where
  mantissa : Nat
  scale : Nat
deriving DecidableEq

inductive ImpossibleKind where
  | absoluteZero
  | hugeValue
  | nullAssign
deriving DecidableEq

inductive Issue where
  | equalFloatPrecision
  | impossibleValue (lineNo : Nat) (kind : ImpossibleKind)
  | tempTooHigh (v : NumLit)
  | tempTooLow (v : NumLit)
  | validationError (msg : String)
deriving DecidableEq

def isPrecisionIssue : Issue → Bool
  | Issue.equalFloatPrecision => true
  | _ => false

def isTempTooLowIssue : Issue → Bool
  | Issue.tempTooLow _ => true
  | _ => false

structure ValidationResult where
  file : String
  compiles : Bool
  realistic : Bool
  quality : String
  issues : List Issue
  keep : List String
  fix : List String
  remove : List String
deriving DecidableEq

/-- The fresh result dict of validator.py lines 23-32 (`file` is the
basename of the test file path; file-system paths are abstract here). -/
def initValidationResult (fileName : String) : ValidationResult :=
  { file := fileName, compiles := true, realistic := true, quality := "High",
    issues := [], keep := [], fix := [], remove := [] }

/-! ## `_calculate_quality_rating` (validator.py lines 278-287) -/

/-- `_calculate_quality_rating`: High needs zero issues plus both flags,
Medium needs at most two issues and `compiles`, otherwise Low. -/
def calculate_quality_rating (result : ValidationResult) : String :=
  if result.issues.length = 0 ∧ result.compiles = true ∧ result.realistic = true then
    "High"
  else if result.issues.length ≤ 2 ∧ result.compiles = true then
    "Medium"
  else
    "Low"

/-- The quality formula claimed by the spec for every produced result:
High iff no issues and both flags; otherwise Medium iff at most two
issues and `compiles`; otherwise Low. -/
def qualitySpec (r : ValidationResult) : Prop :=
  (r.quality = "High" ↔ (r.issues = [] ∧ r.compiles = true ∧ r.realistic = true)) ∧
  (¬(r.issues = [] ∧ r.compiles = true ∧ r.realistic = true) →
    (r.quality = "Medium" ↔ (r.issues.length ≤ 2 ∧ r.compiles = true))) ∧
  (¬(r.issues = [] ∧ r.compiles = true ∧ r.realistic = true) →
    ¬(r.issues.length ≤ 2 ∧ r.compiles = true) → r.quality = "Low")

/-! ## `validate_test_file` (validator.py lines 19-65)

The body of the `try:` block (file reads plus the four check passes,
lines 34-55) is abstracted as `checks`: it either completes with a
mutated result (`Sum.inl`) or raises at some intermediate state with an
exception message (`Sum.inr (state, str e)`).  The function itself then
computes the quality rating on success (line 58) or runs the `except`
handler of lines 60-63. -/
def validate_test_file (fileName : String)
    (checks : ValidationResult → ValidationResult ⊕ (ValidationResult × String)) :
    ValidationResult :=
  match checks (initValidationResult fileName) with
  | Sum.inl completed => { completed with quality := calculate_quality_rating completed }
  | Sum.inr (st, msg) =>
      { st with issues := st.issues ++ [Issue.validationError msg],
                compiles := false, quality := "Low" }

/-! ## Stub classification (generator.py lines 125-134) -/

structure FunctionSig where
  name : String
  return_type : String
deriving DecidableEq

/-- The loop of `generate_tests_for_file` that fills
`functions_that_need_stubs`: a called function needs a stub iff it is
not implemented in the current file, is a key of the dependency map,
and the map points at a different file. -/
def functions_that_need_stubs (functions : List FunctionSig)
    (called_functions : List String) (dependency_map : String → Option String)
    (file_path : String) : List String :=
  called_functions.filter fun calledFunc =>
    !((functions.map FunctionSig.name).contains calledFunc) &&
    (match dependency_map calledFunc with
     | some defFile => defFile != file_path
     | none => false)

/-! ## `_try_generate_with_fallback` (generator.py lines 44-98)

The remote Gemini calls are oracles: `gen attempt` is the outcome of
`self.model.generate_content(prompt)` on the given retry attempt, and
`genFb modelName` the outcome of the one fallback call made with a
freshly constructed model of that name.  Exceptions are their lowered
message strings (`str(e)` is matched case-insensitively).  The
`time.sleep(wait_time)` calls are recorded in a `sleeps` trace. -/

/-- The keyword set of generator.py lines 58-61. -/
def rate_limit_keywords : List String :=
  ["rate limit", "quota", "limit exceeded", "resource exhausted",
   "429", "too many requests"]

/-- ASCII lowering, as `str.lower()` behaves on the ASCII error texts. -/
def pyLowerChar (c : Char) : Char :=
  if 'A' ≤ c ∧ c ≤ 'Z' then Char.ofNat (c.toNat + 32) else c

def pyLower (cs : List Char) : List Char := cs.map pyLowerChar

/-- `pat in s` for Python strings: some position of `cs` starts with `pat`. -/
def hasSubstr (cs pat : List Char) : Bool :=
  (List.range (cs.length + 1)).any fun i => pat.isPrefixOf (cs.drop i)

/-- `pat in s` on `String`s (Python's `in` operator). -/
def containsSubstr (s pat : String) : Bool := hasSubstr s.data pat.data

/-- The rate-limit classification of generator.py lines 58-61:
some keyword is a substring of the lowered error message. -/
def isRateLimitError (e : String) : Bool :=
  rate_limit_keywords.any fun k => hasSubstr (pyLower e.data) k.data

/-- Outcome of the retry loop of generator.py lines 49-74:
success, break-to-fallback with the last (rate-limit) error, or an
immediately re-raised non-rate-limit error.  Each constructor carries
the trace of backoff sleeps performed so far. -/
inductive RetryOutcome where
  | ok (resp : String) (sleeps : List Nat)
  | exhausted (lastError : Option String) (sleeps : List Nat)
  | raised (err : String) (sleeps : List Nat)
deriving DecidableEq

/-- The `for attempt in range(max_retries)` loop (generator.py lines
49-74).  The first argument is the number of remaining iterations; on a
rate-limit error with more than one iteration left the loop sleeps
`2 ^ attempt + 1` seconds and retries, on the last iteration it breaks
to the fallback phase, and on any other error it re-raises at once. -/
def retryLoop (gen : Nat → Except String String) :
    Nat → Nat → List Nat → RetryOutcome
  | 0, _, sleeps => RetryOutcome.exhausted none sleeps
  | 1, attempt, sleeps =>
    match gen attempt with
    | Except.ok r => RetryOutcome.ok r sleeps
    | Except.error e =>
      if isRateLimitError e then RetryOutcome.exhausted (some e) sleeps
      else RetryOutcome.raised e sleeps
  | n + 2, attempt, sleeps =>
    match gen attempt with
    | Except.ok r => RetryOutcome.ok r sleeps
    | Except.error e =>
      if isRateLimitError e then
        retryLoop gen (n + 1) (attempt + 1) (sleeps ++ [2 ^ attempt + 1])
      else RetryOutcome.raised e sleeps

/-- The fallback loop of generator.py lines 77-95: walk the fixed model
preference list, skip the model that just failed, and return the first
successful response together with the model switched to. -/
def fallbackLoop (genFb : String → Except String String) :
    List String → String → Option (String × String)
  | [], _ => none
  | m :: rest, original =>
    if m = original then fallbackLoop genFb rest original
    else
      match genFb m with
      | Except.ok r => some (r, m)
      | Except.error _ => fallbackLoop genFb rest original

/-- Result of one `_try_generate_with_fallback` call: the raised error
or the response paired with the now-active model name (the sticky
switch of generator.py lines 88-89), plus the backoff sleep trace. -/
structure GenCallResult where
  outcome : Except String (String × String)
  sleeps : List Nat

/-- `_try_generate_with_fallback` (generator.py lines 44-98): run the
retry loop on the current model; on success keep the current model; on
a re-raised error propagate it; after persistent rate limiting try the
fallback models and permanently switch on success, else raise the last
error (or the generic message when `max_retries` was zero). -/
def try_generate_with_fallback (gen : Nat → Except String String)
    (genFb : String → Except String String) (models_to_try : List String)
    (current_model_name : String) (max_retries : Nat) : GenCallResult :=
  match retryLoop gen max_retries 0 [] with
  | RetryOutcome.ok r sleeps => ⟨Except.ok (r, current_model_name), sleeps⟩
  | RetryOutcome.raised e sleeps => ⟨Except.error e, sleeps⟩
  | RetryOutcome.exhausted lastErr sleeps =>
    match fallbackLoop genFb models_to_try current_model_name with
    | some (r, m) => ⟨Except.ok (r, m), sleeps⟩
    | none =>
      ⟨Except.error
        (lastErr.getD "All models failed and no fallback available"), sleeps⟩

/-! ## `_check_reality_tests` (validator.py lines 131-185)

The regular expressions used there are embedded as explicit character
scanners with the same matching semantics on the ASCII test text. -/

/-- Python `\s` (ASCII whitespace). -/
def isPySpace (c : Char) : Bool :=
  c = ' ' || c = '\t' || c = '\n' || c = '\r' || c = '\x0b' || c = '\x0c'

/-- Python `\w` (ASCII word character). -/
def isWordChar (c : Char) : Bool := c.isAlpha || c.isDigit || c = '_'

/-- Split at the first occurrence of `stop`: the characters before it
and the remainder after it, or `none` when `stop` does not occur. -/
def splitAtChar (stop : Char) : List Char → Option (List Char × List Char)
  | [] => none
  | c :: rest =>
    if c = stop then some ([], rest)
    else (splitAtChar stop rest).map fun p => (c :: p.1, p.2)

/-- Python's `s.split('\n')`. -/
def splitOnNl : List Char → List (List Char)
  | [] => [[]]
  | c :: rest =>
    if c = '\n' then [] :: splitOnNl rest
    else
      match splitOnNl rest with
      | l :: ls => (c :: l) :: ls
      | [] => [[c]]

/-- `re.search(r'NULL.*=.*[^=!].*NULL', line)`: a `NULL`, then an `=`,
then a character that is neither `=` nor `!`, then another `NULL`, in
this order on one line. -/
def nullAssignPattern (line : List Char) : Bool :=
  (List.range line.length).any fun i1 =>
    "NULL".data.isPrefixOf (line.drop i1) &&
    ((List.range line.length).any fun i2 =>
      decide (i1 + 4 ≤ i2) && line.getD i2 ' ' = '=' &&
      ((List.range line.length).any fun i3 =>
        decide (i2 + 1 ≤ i3) && !(line.getD i3 ' ' = '=') &&
        !(line.getD i3 ' ' = '!') &&
        ((List.range line.length).any fun i4 =>
          decide (i3 + 1 ≤ i4) && "NULL".data.isPrefixOf (line.drop i4))))

/-- One match of `name\s*\([^)]+\)` anchored at the head of `cs`. -/
def pyCallMatchAt (name cs : List Char) : Bool :=
  name.isPrefixOf cs &&
  match (cs.drop name.length).dropWhile isPySpace with
  | '(' :: r2 =>
    (match splitAtChar ')' r2 with
     | some (body, _) => !body.isEmpty
     | none => false)
  | _ => false

/-- `re.findall(name + r'\s*\([^)]+\)', s)` is non-empty. -/
def existsCall (name cs : List Char) : Bool :=
  (List.range cs.length).any fun i => pyCallMatchAt name (cs.drop i)

/-- The issues produced by the three `impossible_patterns` of
validator.py lines 140-151, scanned line by line (1-based numbering).
`re.search(r'-?273\.15f?', l)` holds iff `273.15` occurs in `l`, and
`re.search(r'1e10+', l)` iff `1e10` occurs. -/
def impossible_pattern_issues (content : List Char) : List Issue :=
  ((splitOnNl content).enum).flatMap fun p =>
    (if hasSubstr p.2 "273.15".data then
      [Issue.impossibleValue (p.1 + 1) ImpossibleKind.absoluteZero] else []) ++
    (if hasSubstr p.2 "1e10".data then
      [Issue.impossibleValue (p.1 + 1) ImpossibleKind.hugeValue] else []) ++
    (if nullAssignPattern p.2 then
      [Issue.impossibleValue (p.1 + 1) ImpossibleKind.nullAssign] else [])

/-- Value of a digit list, most significant first. -/
def digitsToNat (ds : List Char) : Nat :=
  ds.foldl (fun a c => a * 10 + (c.toNat - 48)) 0

/-- The literal captured by `(\d+\.?\d*)`: integer digits `d1` and
fraction digits `d2`, as the exact decimal `mantissa / 10 ^ scale`. -/
def mkNumLit (d1 d2 : List Char) : NumLit :=
  ⟨digitsToNat (d1 ++ d2), d2.length⟩

/-- The optional trailing `f` consumed by the `f?` of the literal
pattern. -/
def dropOneF : List Char → List Char
  | 'f' :: r => r
  | r => r

/-- `re.findall(r'(\d+\.?\d*)f?', content)` (validator.py line 165):
left-to-right non-overlapping scan; each match greedily takes digits,
an optional dot plus digits, then an optional `f`.  The minus sign is
NOT part of the pattern, so captured literals are always unsigned. -/
def scanNumsLoop : Nat → List Char → List NumLit
  | 0, _ => []
  | _ + 1, [] => []
  | fuel + 1, c :: rest =>
    if c.isDigit then
      let d1 := (c :: rest).takeWhile Char.isDigit
      let r1 := (c :: rest).drop d1.length
      match r1 with
      | '.' :: r2 =>
        let d2 := r2.takeWhile Char.isDigit
        mkNumLit d1 d2 :: scanNumsLoop fuel (dropOneF (r2.drop d2.length))
      | _ => mkNumLit d1 [] :: scanNumsLoop fuel (dropOneF r1)
    else scanNumsLoop fuel rest

def scanNums (content : List Char) : List NumLit :=
  scanNumsLoop (content.length + 1) content

/-- The raw-ADC-context exemption of validator.py line 173: `raw` or
`adc` in the lowered content, or the literal `1023` anywhere. -/
def tempExempt (contentLower content : List Char) : Bool :=
  hasSubstr contentLower "raw".data || hasSubstr contentLower "adc".data ||
  hasSubstr content "1023".data

/-- The per-literal branch chain of validator.py lines 171-183, with
the exact decimal comparisons `temp > 200.0`, `temp <= 1024.0`,
`temp > 1024.0`, `temp < -100.0` written over the scaled mantissa. -/
def tempCheckOne (contentLower content : List Char) (v : NumLit) : Option Issue :=
  if 200 * 10 ^ v.scale < v.mantissa ∧ v.mantissa ≤ 1024 * 10 ^ v.scale then
    if tempExempt contentLower content then none
    else some (Issue.tempTooHigh v)
  else if 1024 * 10 ^ v.scale < v.mantissa then some (Issue.tempTooHigh v)
  else if (v.mantissa : Int) < -100 * 10 ^ v.scale then some (Issue.tempTooLow v)
  else none

/-- All issues appended by `_check_reality_tests`, in source order:
the unconditional `TEST_ASSERT_EQUAL_FLOAT` substring check (line 135),
the per-line impossible patterns (lines 140-151), the
equality-assertion-without-tolerance check (lines 154-160), and the
temperature plausibility scan (lines 163-185). -/
def realityIssues (content : List Char) : List Issue :=
  (if hasSubstr content "TEST_ASSERT_EQUAL_FLOAT".data then
    [Issue.equalFloatPrecision] else []) ++
  impossible_pattern_issues content ++
  (if existsCall "TEST_ASSERT_EQUAL_FLOAT".data content &&
      !(existsCall "TEST_ASSERT_FLOAT_WITHIN".data content) then
    [Issue.equalFloatPrecision] else []) ++
  (if hasSubstr (pyLower content) "temperature".data ||
      hasSubstr (pyLower content) "celsius".data then
    (scanNums content).filterMap (tempCheckOne (pyLower content) content)
  else [])

/-- `_check_reality_tests` as a state transformer on the result dict:
every branch that appends an issue also clears `realistic`, so the
flag ends up `false` exactly when some issue was appended. -/
def check_reality_tests (test_content : String) (result : ValidationResult) :
    ValidationResult :=
  { result with
    issues := result.issues ++ realityIssues test_content.data,
    realistic := result.realistic && (realityIssues test_content.data).isEmpty }

/-! ## `_post_process_test_code`, float-assertion rewrite step
(generator.py lines 287-292)

`re.sub(r'TEST_ASSERT_EQUAL_FLOAT\s*\(\s*([^,]+)\s*,\s*([^)]+)\s*\)',
        r'TEST_ASSERT_FLOAT_WITHIN(0.01f, \1, \2)', test_code)`:
the scan below is the standard leftmost, non-overlapping `re.sub` pass;
replacements are emitted and not rescanned within the same pass. -/

/-- The text a regex group `\s*([^X]+)\s*` captures out of the segment
before the stopper: leading whitespace goes to the preceding `\s*`, and
when the segment is all whitespace, backtracking leaves exactly its
last character in the group. -/
def regexGroup (seg : List Char) : List Char :=
  let t := seg.dropWhile isPySpace
  if t.isEmpty then [seg.getLastD ' '] else t

/-- One anchored match of the float-equality assertion pattern:
returns the substituted text and the remainder after the match. -/
def tryMatchEF (cs : List Char) : Option (List Char × List Char) :=
  if "TEST_ASSERT_EQUAL_FLOAT".data.isPrefixOf cs then
    match (cs.drop 23).dropWhile isPySpace with
    | '(' :: r2 =>
      match splitAtChar ',' r2 with
      | none => none
      | some (seg1, r3) =>
        if seg1.isEmpty then none
        else
          match splitAtChar ')' r3 with
          | none => none
          | some (seg2, rest) =>
            if seg2.isEmpty then none
            else
              some ("TEST_ASSERT_FLOAT_WITHIN(0.01f, ".data ++
                regexGroup seg1 ++ ", ".data ++ regexGroup seg2 ++ ")".data,
                rest)
    | _ => none
  else none

/-- One `re.sub` pass: scan left to right, substitute each match and
continue after it (a match consumes at least the 23-character literal,
so length-plus-one fuel always suffices). -/
def pySubEF : Nat → List Char → List Char
  | 0, cs => cs
  | _ + 1, [] => []
  | fuel + 1, c :: rest =>
    match tryMatchEF (c :: rest) with
    | some (repl, after) => repl ++ pySubEF fuel after
    | none => c :: pySubEF fuel rest

/-- The exact-equality float assertion rewriting step of
`_post_process_test_code` (generator.py lines 287-292). -/
def fixFloatAssertions (s : String) : String :=
  String.mk (pySubEF (s.data.length + 1) s.data)

/-! ## `_post_process_test_code`, test-runner synthesis
(generator.py lines 348-358) -/

/-- The tail of a `void\s+(test_\w+)\s*\(` match, after the literal
`test_`: a non-empty greedy run of word characters, optional
whitespace, then the opening parenthesis. -/
def testFnTail (r2 : List Char) : Option (List Char × List Char) :=
  if (r2.takeWhile isWordChar).isEmpty then none
  else
    match (r2.drop (r2.takeWhile isWordChar).length).dropWhile isPySpace with
    | '(' :: r5 => some ("test_".data ++ r2.takeWhile isWordChar, r5)
    | _ => none

/-- One anchored match of `void\s+(test_\w+)\s*\(`: returns the
captured name and the remainder after the match. -/
def tryMatchTestFn (cs : List Char) : Option (List Char × List Char) :=
  if "void".data.isPrefixOf cs then
    if ((cs.drop 4).takeWhile isPySpace).isEmpty then none
    else
      if "test_".data.isPrefixOf ((cs.drop 4).dropWhile isPySpace) then
        testFnTail (((cs.drop 4).dropWhile isPySpace).drop 5)
      else none
  else none

/-- `re.findall(r'void\s+(test_\w+)\s*\(', test_code_with_main)`:
left-to-right non-overlapping scan collecting the captured names. -/
def findTestFnsLoop : Nat → List Char → List (List Char)
  | 0, _ => []
  | _ + 1, [] => []
  | fuel + 1, c :: rest =>
    match tryMatchTestFn (c :: rest) with
    | some (name, after) => name :: findTestFnsLoop fuel after
    | none => findTestFnsLoop fuel rest

def findTestFunctions (s : String) : List (List Char) :=
  findTestFnsLoop (s.data.length + 1) s.data

/-- `'    RUN_TEST({test_func});\n'` without its newline. -/
def runLineChars (f : List Char) : List Char :=
  "    RUN_TEST(".data ++ f ++ ");".data

/-- `'    RUN_TEST({test_func});\n'`. -/
def pieceChars (f : List Char) : List Char :=
  "    RUN_TEST(".data ++ f ++ ");\n".data

/-- `'\n\nint main(void) {\n    UNITY_BEGIN();\n\n'`. -/
def hdrChars : List Char :=
  "\n\nint main(void) \x7b\n    UNITY_BEGIN();\n\n".data

/-- `'\n    return UNITY_END();\n}'`. -/
def ftrChars : List Char := "\n    return UNITY_END();\n\x7d".data

/-- The synthesized runner text appended for the discovered tests. -/
def runnerChars (fns : List (List Char)) : List Char :=
  hdrChars ++ (fns.map pieceChars).join ++ ftrChars

def mainLineChars : List Char := "int main(void) \x7b".data

/-- The final step of `_post_process_test_code` (generator.py lines
348-358): when the findall discovers test functions, append the runner
built from them in discovery order; otherwise leave the text alone. -/
def addTestRunner (s : String) : String :=
  if (findTestFunctions s).isEmpty then s
  else String.mk (s.data ++ runnerChars (findTestFunctions s))

/-! ## `CodeNavigator.get_file_functions` (navigator.py lines 77-84)

The methods actually defined on the `CodeNavigator` class body of
navigator.py.  The helper `_get_functions_from_file` that
`get_file_functions` calls is NOT among them: the code intended to
define it sits after the `return c_files` statement of
`_find_all_c_files` (navigator.py lines 99-129) and is unreachable, so
the name never exists on the class. -/
def codeNavigatorMethods : List String :=
  ["__init__", "find_function_definition", "find_function_calls",
   "get_file_functions", "_find_all_c_files", "show_function_info",
   "interactive_navigate"]

inductive PyError where
  | attributeError (msg : String)
deriving DecidableEq

/-- `get_file_functions` (navigator.py lines 77-84): a cached path
returns its cached list; otherwise the attribute lookup of
`self._get_functions_from_file` is performed, which raises
`AttributeError` because no such method is defined on the class. -/
def get_file_functions (file_cache : List (String × List FunctionSig))
    (file_path : String) : Except PyError (List FunctionSig) :=
  match file_cache.lookup file_path with
  | some fns => Except.ok fns
  | none =>
    if codeNavigatorMethods.contains "_get_functions_from_file" then
      Except.ok []
    else
      Except.error (PyError.attributeError
        "'CodeNavigator' object has no attribute '_get_functions_from_file'")

end AiCTestGen

namespace AiCTestGen

/-! ## Theorems -/

/-- Any result whose `quality` field equals the computed rating of its
own state satisfies the spec's quality formula. -/
theorem qualitySpec_of_rating_eq (r : ValidationResult)
    (h : r.quality = calculate_quality_rating r) : qualitySpec r := by
  unfold calculate_quality_rating at h
  by_cases c1 : r.issues.length = 0 ∧ r.compiles = true ∧ r.realistic = true
  · have he : r.issues = [] := List.length_eq_zero.mp c1.1
    have hq : r.quality = "High" := by rw [h, if_pos c1]
    refine ⟨Iff.intro (fun _ => ⟨he, c1.2.1, c1.2.2⟩) (fun _ => hq), ?_, ?_⟩
    · intro hcon; exact absurd ⟨he, c1.2.1, c1.2.2⟩ hcon
    · intro hcon _; exact absurd ⟨he, c1.2.1, c1.2.2⟩ hcon
  · have hne : ¬(r.issues = [] ∧ r.compiles = true ∧ r.realistic = true) := by
      intro hx
      exact c1 ⟨by rw [hx.1]; rfl, hx.2.1, hx.2.2⟩
    by_cases c2 : r.issues.length ≤ 2 ∧ r.compiles = true
    · have hq : r.quality = "Medium" := by rw [h, if_neg c1, if_pos c2]
      refine ⟨?_, ?_, ?_⟩
      · constructor
        · intro hH; rw [hq] at hH; exact absurd hH (by decide)
        · intro hrhs; exact absurd hrhs hne
      · intro _; exact Iff.intro (fun _ => c2) (fun _ => hq)
      · intro _ hcon; exact absurd c2 hcon
    · have hq : r.quality = "Low" := by rw [h, if_neg c1, if_neg c2]
      refine ⟨?_, ?_, ?_⟩
      · constructor
        · intro hH; rw [hq] at hH; exact absurd hH (by decide)
        · intro hrhs; exact absurd hrhs hne
      · intro _
        constructor
        · intro hM; rw [hq] at hM; exact absurd hM (by decide)
        · intro hrhs; exact absurd hrhs c2
      · intro _ _; exact hq

/-- C1: every result produced by `validate_test_file` satisfies the
spec's quality formula: High iff zero issues and `compiles` and
`realistic`; otherwise Medium iff at most 2 issues and `compiles`;
otherwise Low. -/
theorem validate_quality_formula (fileName : String)
    (checks : ValidationResult → ValidationResult ⊕ (ValidationResult × String)) :
    qualitySpec (validate_test_file fileName checks) := by
  unfold validate_test_file
  cases h : checks (initValidationResult fileName) with
  | inl completed => exact qualitySpec_of_rating_eq _ rfl
  | inr pr =>
    obtain ⟨st, msg⟩ := pr
    exact qualitySpec_of_rating_eq _ (by simp [calculate_quality_rating])

/-- C1 witness: the formula holds at a concrete run whose checks
complete without raising. -/
theorem validate_quality_formula_witness :
    qualitySpec (validate_test_file "test_sensor.c" (fun r => Sum.inl r)) :=
  validate_quality_formula "test_sensor.c" (fun r => Sum.inl r)

/-- C2 counterexample: with `compiles = false` and zero issues the
computed quality is "Low", not "Medium" as the claim states. -/
theorem quality_rating_compiles_false_not_medium :
    calculate_quality_rating
      { file := "t", compiles := false, realistic := true, quality := "High",
        issues := [], keep := [], fix := [], remove := [] } = "Low" ∧
    ¬ (calculate_quality_rating
      { file := "t", compiles := false, realistic := true, quality := "High",
        issues := [], keep := [], fix := [], remove := [] } = "Medium") := by
  constructor
  · rfl
  · decide

/-- C2 amended: whenever `compiles = false`, `_calculate_quality_rating`
returns "Low" regardless of the issue count — it never yields "High" or
"Medium". -/
theorem quality_rating_compiles_false_low (r : ValidationResult)
    (h : r.compiles = false) : calculate_quality_rating r = "Low" := by
  simp [calculate_quality_rating, h]

/-- C2 amended witness at a concrete state. -/
theorem quality_rating_compiles_false_low_witness :
    calculate_quality_rating
      { file := "t", compiles := false, realistic := true, quality := "High",
        issues := [], keep := [], fix := [], remove := [] } = "Low" :=
  quality_rating_compiles_false_low _ rfl

/-- C3: a called function is classified as needing a stub iff it is a
called function that is not defined in the current file, is a key of
the dependency map, and the map sends it to a different file path; in
particular names absent from the map never get stubs. -/
theorem list_contains_iff_mem (l : List String) (a : String) :
    l.contains a = true ↔ a ∈ l := by
  induction l with
  | nil => simp
  | cons b bs ih => simp [List.contains_cons, ih]

theorem stub_classification (functions : List FunctionSig)
    (called_functions : List String) (dependency_map : String → Option String)
    (file_path : String) (c : String) :
    c ∈ functions_that_need_stubs functions called_functions dependency_map file_path ↔
      (c ∈ called_functions ∧ c ∉ functions.map FunctionSig.name ∧
        ∃ defFile, dependency_map c = some defFile ∧ defFile ≠ file_path) := by
  unfold functions_that_need_stubs
  rw [List.mem_filter]
  constructor
  · rintro ⟨hmem, hcond⟩
    rw [Bool.and_eq_true] at hcond
    obtain ⟨hnotimpl, hmap⟩ := hcond
    refine ⟨hmem, ?_, ?_⟩
    · intro habs
      rw [Bool.not_eq_true'] at hnotimpl
      have hc := (list_contains_iff_mem _ _).mpr habs
      rw [hnotimpl] at hc
      exact absurd hc (by decide)
    · cases hdm : dependency_map c with
      | none => rw [hdm] at hmap; exact absurd hmap (by simp)
      | some defFile =>
        rw [hdm] at hmap
        exact ⟨defFile, rfl, by simpa using hmap⟩
  · rintro ⟨hmem, hnot, defFile, hdm, hne⟩
    refine ⟨hmem, ?_⟩
    rw [Bool.and_eq_true]
    constructor
    · rw [Bool.not_eq_true']
      by_contra hcon
      rw [Bool.not_eq_false] at hcon
      exact hnot ((list_contains_iff_mem _ _).mp hcon)
    · rw [hdm]
      simpa using hne

/-- C4: `validate_test_file` is a total function of its inputs: when
the checks complete it returns their result with the quality computed,
and when they raise at any intermediate state the exception is caught,
exactly one synthetic `Validation error` issue is appended, `compiles`
is forced to `false` and `quality` to "Low". -/
theorem validate_test_file_catches_exceptions (fileName : String)
    (checks : ValidationResult → ValidationResult ⊕ (ValidationResult × String)) :
    (∀ completed, checks (initValidationResult fileName) = Sum.inl completed →
      validate_test_file fileName checks =
        { completed with quality := calculate_quality_rating completed }) ∧
    (∀ st msg, checks (initValidationResult fileName) = Sum.inr (st, msg) →
      (validate_test_file fileName checks).compiles = false ∧
      (validate_test_file fileName checks).quality = "Low" ∧
      (validate_test_file fileName checks).issues =
        st.issues ++ [Issue.validationError msg]) := by
  constructor
  · intro completed h
    simp [validate_test_file, h]
  · intro st msg h
    simp [validate_test_file, h]

/-- C4 witness: a checks body that raises immediately (e.g. an
unreadable file) yields the downgraded Low result with one synthetic
issue. -/
theorem validate_test_file_catches_exceptions_witness :
    (validate_test_file "test_x.c"
      (fun r => Sum.inr (r, "No such file or directory"))).compiles = false ∧
    (validate_test_file "test_x.c"
      (fun r => Sum.inr (r, "No such file or directory"))).quality = "Low" ∧
    (validate_test_file "test_x.c"
      (fun r => Sum.inr (r, "No such file or directory"))).issues =
      (initValidationResult "test_x.c").issues ++
        [Issue.validationError "No such file or directory"] :=
  (validate_test_file_catches_exceptions "test_x.c"
    (fun r => Sum.inr (r, "No such file or directory"))).2
    (initValidationResult "test_x.c") "No such file or directory" rfl

/-- Shifting the backoff-sleep trace by one attempt. -/
theorem sleeps_shift (att k : Nat) :
    [2 ^ att + 1] ++ (List.range k).map (fun i => 2 ^ (att + 1 + i) + 1) =
    (List.range (k + 1)).map fun i => 2 ^ (att + i) + 1 := by
  rw [List.range_succ_eq_map, List.map_cons, List.map_map, List.singleton_append]
  refine congrArg₂ List.cons (by simp) ?_
  refine List.map_congr_left ?_
  intro i _
  simp only [Function.comp_apply]
  congr 2
  omega

/-- If attempts `att, …, att+k-1` fail rate-limited and attempt `att+k`
fails with a non-rate-limit error, the retry loop re-raises that error
after exactly the `k` earlier backoff sleeps. -/
theorem retryLoop_raised (gen : Nat → Except String String) (e : String)
    (he : isRateLimitError e = false) :
    ∀ (k rem att : Nat) (sleeps : List Nat), k < rem →
      (∀ i, i < k → ∃ ei, gen (att + i) = Except.error ei ∧
        isRateLimitError ei = true) →
      gen (att + k) = Except.error e →
      retryLoop gen rem att sleeps =
        RetryOutcome.raised e
          (sleeps ++ (List.range k).map fun i => 2 ^ (att + i) + 1) := by
  intro k
  induction k with
  | zero =>
    intro rem att sleeps hk _ hg
    rw [Nat.add_zero] at hg
    match rem, hk with
    | 1, _ =>
      simp only [retryLoop, hg, he, Bool.false_eq_true, if_false,
        List.range_zero, List.map_nil, List.append_nil]
    | n + 2, _ =>
      simp only [retryLoop, hg, he, Bool.false_eq_true, if_false,
        List.range_zero, List.map_nil, List.append_nil]
  | succ k ih =>
    intro rem att sleeps hk hall hg
    match rem, hk with
    | n + 2, hk =>
      obtain ⟨e0, hg0, hrl0⟩ := hall 0 (Nat.succ_pos k)
      rw [Nat.add_zero] at hg0
      have hstep :
          retryLoop gen (n + 2) att sleeps =
            retryLoop gen (n + 1) (att + 1) (sleeps ++ [2 ^ att + 1]) := by
        simp only [retryLoop, hg0, hrl0, if_true]
      rw [hstep]
      have hall' : ∀ i, i < k → ∃ ei, gen (att + 1 + i) = Except.error ei ∧
          isRateLimitError ei = true := by
        intro i hi
        obtain ⟨ei, hgi, hrli⟩ := hall (i + 1) (Nat.succ_lt_succ hi)
        refine ⟨ei, ?_, hrli⟩
        have : att + 1 + i = att + (i + 1) := by omega
        rw [this]; exact hgi
      have hg' : gen (att + 1 + k) = Except.error e := by
        have : att + 1 + k = att + (k + 1) := by omega
        rw [this]; exact hg
      rw [ih (n + 1) (att + 1) (sleeps ++ [2 ^ att + 1]) (by omega) hall' hg',
        List.append_assoc, sleeps_shift]

/-- If every attempt of the loop fails rate-limited, the loop exhausts
with some last error after `rem - 1` backoff sleeps. -/
theorem retryLoop_exhausted (gen : Nat → Except String String) :
    ∀ (rem att : Nat) (sleeps : List Nat), 0 < rem →
      (∀ i, i < rem → ∃ ei, gen (att + i) = Except.error ei ∧
        isRateLimitError ei = true) →
      ∃ elast, retryLoop gen rem att sleeps =
        RetryOutcome.exhausted (some elast)
          (sleeps ++ (List.range (rem - 1)).map fun i => 2 ^ (att + i) + 1) := by
  intro rem
  induction rem with
  | zero => intro att sleeps h; exact absurd h (by omega)
  | succ n ih =>
    intro att sleeps _ hall
    match n, ih with
    | 0, _ =>
      obtain ⟨e0, hg0, hrl0⟩ := hall 0 Nat.one_pos
      rw [Nat.add_zero] at hg0
      refine ⟨e0, ?_⟩
      simp [retryLoop, hg0, hrl0]
    | m + 1, ih =>
      obtain ⟨e0, hg0, hrl0⟩ := hall 0 (Nat.succ_pos _)
      rw [Nat.add_zero] at hg0
      have hall' : ∀ i, i < m + 1 → ∃ ei, gen (att + 1 + i) = Except.error ei ∧
          isRateLimitError ei = true := by
        intro i hi
        obtain ⟨ei, hgi, hrli⟩ := hall (i + 1) (by omega)
        refine ⟨ei, ?_, hrli⟩
        have : att + 1 + i = att + (i + 1) := by omega
        rw [this]; exact hgi
      obtain ⟨elast, hrec⟩ := ih (att + 1) (sleeps ++ [2 ^ att + 1])
        (Nat.succ_pos m) hall'
      refine ⟨elast, ?_⟩
      have hstep :
          retryLoop gen (m + 2) att sleeps =
            retryLoop gen (m + 1) (att + 1) (sleeps ++ [2 ^ att + 1]) := by
        simp only [retryLoop, hg0, hrl0, if_true]
      simp only [Nat.add_sub_cancel] at hrec ⊢
      rw [hstep, hrec, List.append_assoc, sleeps_shift]

/-- C5: non-rate-limit errors abort `_try_generate_with_fallback` at
the attempt where they occur — the error is re-raised with no
additional backoff sleep and no fallback model consulted (the result
does not depend on `genFb`) — while persistent rate-limit errors run
the exponential backoff `2 ^ attempt + 1` sleeps and then the fallback
sequence, whose success returns the response and permanently switches
the active model to the fallback model. -/
theorem generate_fallback_error_semantics (gen : Nat → Except String String)
    (genFb : String → Except String String) (models_to_try : List String)
    (current_model_name : String) (max_retries : Nat) :
    (∀ k e, k < max_retries →
      (∀ i, i < k → ∃ ei, gen i = Except.error ei ∧
        isRateLimitError ei = true) →
      gen k = Except.error e → isRateLimitError e = false →
      try_generate_with_fallback gen genFb models_to_try current_model_name
          max_retries =
        ⟨Except.error e, (List.range k).map fun i => 2 ^ i + 1⟩) ∧
    (0 < max_retries →
      (∀ i, i < max_retries → ∃ ei, gen i = Except.error ei ∧
        isRateLimitError ei = true) →
      ∀ r m, fallbackLoop genFb models_to_try current_model_name = some (r, m) →
      try_generate_with_fallback gen genFb models_to_try current_model_name
          max_retries =
        ⟨Except.ok (r, m), (List.range (max_retries - 1)).map fun i => 2 ^ i + 1⟩) := by
  constructor
  · intro k e hk hall hg he
    have hall0 : ∀ i, i < k → ∃ ei, gen (0 + i) = Except.error ei ∧
        isRateLimitError ei = true := by
      intro i hi
      simpa using hall i hi
    have hg0 : gen (0 + k) = Except.error e := by simpa using hg
    have hloop := retryLoop_raised gen e he k max_retries 0 [] hk hall0 hg0
    unfold try_generate_with_fallback
    rw [hloop]
    simp only [List.nil_append, Nat.zero_add]
  · intro hpos hall r m hfb
    have hall0 : ∀ i, i < max_retries → ∃ ei, gen (0 + i) = Except.error ei ∧
        isRateLimitError ei = true := by
      intro i hi
      simpa using hall i hi
    obtain ⟨elast, hloop⟩ := retryLoop_exhausted gen max_retries 0 [] hpos hall0
    unfold try_generate_with_fallback
    rw [hloop, hfb]
    simp only [List.nil_append, Nat.zero_add]

/-- Boolean prefix test as an existential decomposition. -/
theorem isPrefixOf_eq_true_iff :
    ∀ (p l : List Char), p.isPrefixOf l = true ↔ ∃ t, l = p ++ t := by
  intro p
  induction p with
  | nil => intro l; simpa using ⟨l, rfl⟩
  | cons a as ih =>
    intro l
    cases l with
    | nil => simp [List.isPrefixOf]
    | cons b bs =>
      simp only [List.isPrefixOf, Bool.and_eq_true, beq_iff_eq, ih,
        List.cons_append, List.cons.injEq]
      constructor
      · rintro ⟨hab, t, ht⟩; exact ⟨t, hab.symm, ht⟩
      · rintro ⟨t, hba, ht⟩; exact ⟨hba.symm, t, ht⟩

/-- A concrete occurrence position certifies `hasSubstr`. -/
theorem hasSubstr_true_of_occurs (cs pat t : List Char) (i : Nat)
    (hne : pat ≠ []) (h : cs.drop i = pat ++ t) : hasSubstr cs pat = true := by
  unfold hasSubstr
  rw [List.any_eq_true]
  have hi : i < cs.length + 1 := by
    by_contra hcon
    have hdrop : cs.drop i = [] := by
      rw [List.drop_eq_nil_iff_le]; omega
    rw [hdrop] at h
    exact hne (by
      cases pat with
      | nil => rfl
      | cons p ps => exact absurd h.symm (by simp))
  exact ⟨i, List.mem_range.mpr hi, (isPrefixOf_eq_true_iff _ _).mpr ⟨t, h⟩⟩

/-- Every true `hasSubstr` yields an occurrence position. -/
theorem exists_occurrence_of_hasSubstr (cs pat : List Char)
    (h : hasSubstr cs pat = true) : ∃ i t, cs.drop i = pat ++ t := by
  unfold hasSubstr at h
  rw [List.any_eq_true] at h
  obtain ⟨i, _, hpref⟩ := h
  obtain ⟨t, ht⟩ := (isPrefixOf_eq_true_iff _ _).mp hpref
  exact ⟨i, t, ht⟩

/-- A call-pattern match somewhere implies the bare name occurs as a
substring. -/
theorem hasSubstr_of_existsCall (name cs : List Char)
    (h : existsCall name cs = true) : hasSubstr cs name = true := by
  unfold existsCall at h
  rw [List.any_eq_true] at h
  obtain ⟨i, hmem, hmatch⟩ := h
  unfold pyCallMatchAt at hmatch
  rw [Bool.and_eq_true] at hmatch
  unfold hasSubstr
  rw [List.any_eq_true]
  refine ⟨i, List.mem_range.mpr ?_, hmatch.1⟩
  have := List.mem_range.mp hmem
  omega

/-- An occurrence of the full `TEST_ASSERT_EQUAL_FLOAT(32.0, result)`
text is in particular a `TEST_ASSERT_EQUAL_FLOAT\s*\([^)]+\)` match. -/
theorem existsCall_equal_float_of_occurs (cs t : List Char) (i : Nat)
    (h : cs.drop i = "TEST_ASSERT_EQUAL_FLOAT(32.0, result)".data ++ t) :
    existsCall "TEST_ASSERT_EQUAL_FLOAT".data cs = true := by
  unfold existsCall
  rw [List.any_eq_true]
  have hi : i < cs.length := by
    by_contra hcon
    have hdrop : cs.drop i = [] := by
      rw [List.drop_eq_nil_iff_le]; omega
    rw [hdrop] at h
    exact absurd h.symm (by simp)
  refine ⟨i, List.mem_range.mpr hi, ?_⟩
  rw [h]
  exact (rfl :
    pyCallMatchAt "TEST_ASSERT_EQUAL_FLOAT".data
      ("TEST_ASSERT_EQUAL_FLOAT(32.0, result)".data ++ t) = true)

/-- Counting an absent issue shape in an if-guarded singleton. -/
theorem countP_if_single (p : Issue → Bool) (b : Prop) [Decidable b] (x : Issue)
    (hx : p x = false) :
    List.countP p (if b then [x] else []) = 0 := by
  split
  · simp [List.countP_cons, hx]
  · simp

/-- The impossible-pattern scan only produces `impossibleValue` issues. -/
theorem countP_impossible_eq_zero (p : Issue → Bool)
    (hp : ∀ n k, p (Issue.impossibleValue n k) = false) (cs : List Char) :
    List.countP p (impossible_pattern_issues cs) = 0 := by
  rw [List.countP_eq_zero]
  intro a ha
  unfold impossible_pattern_issues at ha
  rw [List.mem_flatMap] at ha
  obtain ⟨q, _, hmem⟩ := ha
  rw [List.mem_append] at hmem
  rcases hmem with hmem | hmem
  · rw [List.mem_append] at hmem
    rcases hmem with hmem | hmem
    · split at hmem
      · rw [List.mem_singleton] at hmem; subst hmem; simp [hp]
      · exact absurd hmem (by simp)
    · split at hmem
      · rw [List.mem_singleton] at hmem; subst hmem; simp [hp]
      · exact absurd hmem (by simp)
  · split at hmem
    · rw [List.mem_singleton] at hmem; subst hmem; simp [hp]
    · exact absurd hmem (by simp)

/-- Whatever issue the temperature branch chain emits is a
`tempTooHigh`: the unreasonably-low branch can never fire because the
captured mantissa is an unsigned natural. -/
theorem tempCheckOne_shape (cl c : List Char) (v : NumLit) (i : Issue)
    (h : tempCheckOne cl c v = some i) : ∃ w, i = Issue.tempTooHigh w := by
  unfold tempCheckOne at h
  split_ifs at h <;>
    first
      | exact Option.noConfusion h
      | (injection h with h'; exact ⟨v, h'.symm⟩)
      | (exfalso
         have hpow : (0 : Int) < 10 ^ v.scale := pow_pos (by norm_num) _
         have hneg : (-100 : Int) * 10 ^ v.scale < 0 :=
           mul_neg_of_neg_of_pos (by norm_num) hpow
         have hnn : (0 : Int) ≤ (v.mantissa : Int) := Int.natCast_nonneg _
         omega)

/-- The temperature scan section never counts under a predicate that
rejects `tempTooHigh`. -/
theorem countP_tempSection_eq_zero (p : Issue → Bool)
    (hp : ∀ w, p (Issue.tempTooHigh w) = false) (cl c : List Char)
    (lits : List NumLit) :
    List.countP p (lits.filterMap (tempCheckOne cl c)) = 0 := by
  rw [List.countP_eq_zero]
  intro a ha
  rw [List.mem_filterMap] at ha
  obtain ⟨v, _, hv⟩ := ha
  obtain ⟨w, rfl⟩ := tempCheckOne_shape cl c v a hv
  simp [hp]

/-- C6 counterexample: on the spec's own scenario text the reality
check appends the same precision issue twice, not once. -/
theorem reality_check_precision_issue_count_is_two :
    containsSubstr "TEST_ASSERT_EQUAL_FLOAT(32.0, result)"
      "TEST_ASSERT_EQUAL_FLOAT(32.0, result)" = true ∧
    containsSubstr "TEST_ASSERT_EQUAL_FLOAT(32.0, result)"
      "TEST_ASSERT_FLOAT_WITHIN" = false ∧
    (check_reality_tests "TEST_ASSERT_EQUAL_FLOAT(32.0, result)"
      (initValidationResult "t")).issues.countP isPrecisionIssue = 2 ∧
    ¬((check_reality_tests "TEST_ASSERT_EQUAL_FLOAT(32.0, result)"
      (initValidationResult "t")).issues.countP isPrecisionIssue = 1) := by
  refine ⟨by decide, by decide, by decide, by decide⟩

/-- C6 amended: for every text containing
`TEST_ASSERT_EQUAL_FLOAT(32.0, result)` and no
`TEST_ASSERT_FLOAT_WITHIN`, the reality check clears `realistic` and
appends exactly TWO precision issues (the same message twice: once from
the unconditional substring check, once from the tolerance-missing
check). -/
theorem reality_check_appends_two_precision_issues (s : String)
    (r : ValidationResult)
    (h1 : containsSubstr s "TEST_ASSERT_EQUAL_FLOAT(32.0, result)" = true)
    (h2 : containsSubstr s "TEST_ASSERT_FLOAT_WITHIN" = false) :
    (check_reality_tests s r).realistic = false ∧
    (check_reality_tests s r).issues.countP isPrecisionIssue =
      r.issues.countP isPrecisionIssue + 2 := by
  unfold containsSubstr at h1 h2
  obtain ⟨i, t, hocc⟩ := exists_occurrence_of_hasSubstr _ _ h1
  have hsplit : "TEST_ASSERT_EQUAL_FLOAT(32.0, result)".data =
      "TEST_ASSERT_EQUAL_FLOAT".data ++ "(32.0, result)".data := rfl
  have ha : hasSubstr s.data "TEST_ASSERT_EQUAL_FLOAT".data = true := by
    refine hasSubstr_true_of_occurs s.data _ ("(32.0, result)".data ++ t) i
      (by decide) ?_
    rw [hocc, hsplit, List.append_assoc]
  have hb : existsCall "TEST_ASSERT_EQUAL_FLOAT".data s.data = true :=
    existsCall_equal_float_of_occurs s.data t i hocc
  have hc : existsCall "TEST_ASSERT_FLOAT_WITHIN".data s.data = false := by
    by_contra hcon
    rw [Bool.not_eq_false] at hcon
    exact absurd (hasSubstr_of_existsCall _ _ hcon) (by rw [h2]; decide)
  have hcount : (realityIssues s.data).countP isPrecisionIssue = 2 := by
    unfold realityIssues
    simp only [ha, hb, hc, Bool.not_false, Bool.and_true, eq_self_iff_true,
      if_true]
    rw [List.countP_append, List.countP_append, List.countP_append,
      countP_impossible_eq_zero isPrecisionIssue (fun _ _ => rfl)]
    have htmp : List.countP isPrecisionIssue
        (if (hasSubstr (pyLower s.data) "temperature".data ||
             hasSubstr (pyLower s.data) "celsius".data) = true then
          (scanNums s.data).filterMap (tempCheckOne (pyLower s.data) s.data)
        else []) = 0 := by
      split
      · exact countP_tempSection_eq_zero isPrecisionIssue (fun _ => rfl) _ _ _
      · simp
    rw [htmp]
    decide
  have hne : (realityIssues s.data).isEmpty = false := by
    by_contra hcon
    rw [Bool.not_eq_false, List.isEmpty_iff] at hcon
    rw [hcon] at hcount
    simp at hcount
  constructor
  · show (r.realistic && (realityIssues s.data).isEmpty) = false
    rw [hne, Bool.and_false]
  · show (r.issues ++ realityIssues s.data).countP isPrecisionIssue = _
    rw [List.countP_append, hcount]

/-- C6 amended witness: a larger test body with the scenario assertion
and no tolerance assertion gets exactly two precision issues. -/
theorem reality_check_appends_two_precision_issues_witness :
    (check_reality_tests
      "void test_convert(void) \x7b TEST_ASSERT_EQUAL_FLOAT(32.0, result); \x7d"
      (initValidationResult "t")).realistic = false ∧
    (check_reality_tests
      "void test_convert(void) \x7b TEST_ASSERT_EQUAL_FLOAT(32.0, result); \x7d"
      (initValidationResult "t")).issues.countP isPrecisionIssue =
      (initValidationResult "t").issues.countP isPrecisionIssue + 2 :=
  reality_check_appends_two_precision_issues
    "void test_convert(void) \x7b TEST_ASSERT_EQUAL_FLOAT(32.0, result); \x7d"
    (initValidationResult "t") (by decide) (by decide)

/-- C9 counterexample: a temperature-mentioning text whose only
literal is `-150.0` (below −100) produces NO issue and keeps
`realistic = true`: the capture regex drops the minus sign, so the
value is scanned as `150.0`. -/
theorem temperature_below_band_not_flagged :
    containsSubstr (String.mk (pyLower "temperature = -150.0;".data))
      "temperature" = true ∧
    containsSubstr "temperature = -150.0;" "-150.0" = true ∧
    scanNums "temperature = -150.0;".data = [⟨1500, 1⟩] ∧
    (check_reality_tests "temperature = -150.0;"
      (initValidationResult "t")).issues = [] ∧
    (check_reality_tests "temperature = -150.0;"
      (initValidationResult "t")).realistic = true := by
  refine ⟨by decide, by decide, by decide, by decide, by decide⟩

/-- C9 amended: the temperature scan sees only unsigned literals, so
the unreasonably-low branch never appends an issue; a scanned value `v`
with `200 < v ≤ 1024` is flagged unless the raw/ADC context exemption
holds, a value `v > 1024` is always flagged, a value `v ≤ 200` is never
flagged, and any appended reality issue clears `realistic`. -/
theorem temperature_check_band_behavior (s : String) (r : ValidationResult)
    (cl c : List Char) (v : NumLit) :
    ((check_reality_tests s r).issues.countP isTempTooLowIssue =
      r.issues.countP isTempTooLowIssue) ∧
    (200 * 10 ^ v.scale < v.mantissa → v.mantissa ≤ 1024 * 10 ^ v.scale →
      tempExempt cl c = false → tempCheckOne cl c v = some (Issue.tempTooHigh v)) ∧
    (1024 * 10 ^ v.scale < v.mantissa →
      tempCheckOne cl c v = some (Issue.tempTooHigh v)) ∧
    (v.mantissa ≤ 200 * 10 ^ v.scale → tempCheckOne cl c v = none) ∧
    (realityIssues s.data ≠ [] → (check_reality_tests s r).realistic = false) := by
  refine ⟨?_, ?_, ?_, ?_, ?_⟩
  · show (r.issues ++ realityIssues s.data).countP isTempTooLowIssue = _
    rw [List.countP_append]
    have hzero : (realityIssues s.data).countP isTempTooLowIssue = 0 := by
      unfold realityIssues
      rw [List.countP_append, List.countP_append, List.countP_append]
      rw [countP_if_single isTempTooLowIssue _ Issue.equalFloatPrecision rfl,
        countP_if_single isTempTooLowIssue _ Issue.equalFloatPrecision rfl,
        countP_impossible_eq_zero isTempTooLowIssue (fun _ _ => rfl)]
      have htmp : List.countP isTempTooLowIssue
          (if (hasSubstr (pyLower s.data) "temperature".data ||
               hasSubstr (pyLower s.data) "celsius".data) = true then
            (scanNums s.data).filterMap (tempCheckOne (pyLower s.data) s.data)
          else []) = 0 := by
        split
        · exact countP_tempSection_eq_zero isTempTooLowIssue (fun _ => rfl) _ _ _
        · simp
      rw [htmp]
    rw [hzero, Nat.add_zero]
  · intro h200 h1024 hex
    unfold tempCheckOne
    rw [if_pos ⟨h200, h1024⟩, hex]
    simp
  · intro h
    unfold tempCheckOne
    rw [if_neg (by intro hcon; omega), if_pos h]
  · intro h
    have hint : ¬((v.mantissa : Int) < -100 * 10 ^ v.scale) := by
      have hpow : (0 : Int) < 10 ^ v.scale := pow_pos (by norm_num) _
      have hneg : (-100 : Int) * 10 ^ v.scale < 0 :=
        mul_neg_of_neg_of_pos (by norm_num) hpow
      have hnn : (0 : Int) ≤ (v.mantissa : Int) := Int.natCast_nonneg _
      omega
    unfold tempCheckOne
    rw [if_neg (by intro hcon; omega), if_neg (by omega), if_neg hint]
  · intro hne
    show (r.realistic && (realityIssues s.data).isEmpty) = false
    have : (realityIssues s.data).isEmpty = false := by
      rw [List.isEmpty_eq_false]
      exact hne
    rw [this, Bool.and_false]

/-- C9 amended witness: the band behaviour at concrete inputs — 300.0
without exemption is flagged too high, 2000.0 is flagged, 150.0 is not,
and the flagged text clears `realistic`. -/
theorem temperature_check_band_behavior_witness :
    tempCheckOne (pyLower "temperature 300.0".data) "temperature 300.0".data
      ⟨3000, 1⟩ = some (Issue.tempTooHigh ⟨3000, 1⟩) ∧
    tempCheckOne (pyLower "temperature 2000.0".data) "temperature 2000.0".data
      ⟨20000, 1⟩ = some (Issue.tempTooHigh ⟨20000, 1⟩) ∧
    tempCheckOne (pyLower "temperature = -150.0;".data)
      "temperature = -150.0;".data ⟨1500, 1⟩ = none := by
  refine ⟨?_, ?_, ?_⟩
  · exact (temperature_check_band_behavior "x" (initValidationResult "t")
      (pyLower "temperature 300.0".data) "temperature 300.0".data
      ⟨3000, 1⟩).2.1 (by decide) (by decide) (by decide)
  · exact (temperature_check_band_behavior "x" (initValidationResult "t")
      (pyLower "temperature 2000.0".data) "temperature 2000.0".data
      ⟨20000, 1⟩).2.2.1 (by decide)
  · exact (temperature_check_band_behavior "x" (initValidationResult "t")
      (pyLower "temperature = -150.0;".data) "temperature = -150.0;".data
      ⟨1500, 1⟩).2.2.2.1 (by decide)

/-- A position with no occurrence of the assertion literal cannot
start a match of the rewrite pattern. -/
theorem tryMatchEF_none_of_no_literal (cs : List Char)
    (h : "TEST_ASSERT_EQUAL_FLOAT".data.isPrefixOf cs = false) :
    tryMatchEF cs = none := by
  unfold tryMatchEF
  rw [h]
  simp

/-- A text with no occurrence of `TEST_ASSERT_EQUAL_FLOAT` passes
through the substitution pass unchanged. -/
theorem pySubEF_id_of_no_occurrence :
    ∀ (fuel : Nat) (cs : List Char),
      (∀ i, "TEST_ASSERT_EQUAL_FLOAT".data.isPrefixOf (cs.drop i) = false) →
      pySubEF fuel cs = cs := by
  intro fuel
  induction fuel with
  | zero => intro cs _; rfl
  | succ n ih =>
    intro cs hno
    cases cs with
    | nil => rfl
    | cons c rest =>
      have h0 : "TEST_ASSERT_EQUAL_FLOAT".data.isPrefixOf (c :: rest) = false := by
        have := hno 0
        simpa using this
      have hrest : ∀ i,
          "TEST_ASSERT_EQUAL_FLOAT".data.isPrefixOf (rest.drop i) = false := by
        intro i
        have := hno (i + 1)
        simpa using this
      show pySubEF (n + 1) (c :: rest) = c :: rest
      unfold pySubEF
      rw [tryMatchEF_none_of_no_literal _ h0]
      rw [ih rest hrest]

/-- A false `hasSubstr` rules out an occurrence at every position. -/
theorem no_occurrence_of_hasSubstr_false (cs pat : List Char)
    (hpat : pat ≠ []) (h : hasSubstr cs pat = false) :
    ∀ i, pat.isPrefixOf (cs.drop i) = false := by
  intro i
  by_cases hi : i < cs.length + 1
  · cases hb : pat.isPrefixOf (cs.drop i) with
    | false => rfl
    | true =>
      exfalso
      have htrue : hasSubstr cs pat = true := by
        unfold hasSubstr
        rw [List.any_eq_true]
        exact ⟨i, List.mem_range.mpr hi, hb⟩
      rw [h] at htrue
      exact Bool.noConfusion htrue
  · have hdrop : cs.drop i = [] := by
      rw [List.drop_eq_nil_iff_le]; omega
    rw [hdrop]
    cases pat with
    | nil => exact absurd rfl hpat
    | cons p ps => rfl

/-- C7 counterexample: the float-equality rewrite is NOT idempotent —
on a nested assertion the first pass leaves an inner
`TEST_ASSERT_EQUAL_FLOAT` that only the second pass rewrites. -/
theorem fix_float_rewrite_not_idempotent :
    fixFloatAssertions "TEST_ASSERT_EQUAL_FLOAT(a, TEST_ASSERT_EQUAL_FLOAT(b, c))" =
      "TEST_ASSERT_FLOAT_WITHIN(0.01f, a, TEST_ASSERT_EQUAL_FLOAT(b, c))" ∧
    fixFloatAssertions (fixFloatAssertions
        "TEST_ASSERT_EQUAL_FLOAT(a, TEST_ASSERT_EQUAL_FLOAT(b, c))") =
      "TEST_ASSERT_FLOAT_WITHIN(0.01f, a, TEST_ASSERT_FLOAT_WITHIN(0.01f, b, c))" ∧
    fixFloatAssertions (fixFloatAssertions
        "TEST_ASSERT_EQUAL_FLOAT(a, TEST_ASSERT_EQUAL_FLOAT(b, c))") ≠
      fixFloatAssertions
        "TEST_ASSERT_EQUAL_FLOAT(a, TEST_ASSERT_EQUAL_FLOAT(b, c))" := by
  refine ⟨by decide, by decide, by decide⟩

/-- C7 amended: the rewrite is idempotent on every text whose
first-pass output no longer contains `TEST_ASSERT_EQUAL_FLOAT` (which
holds whenever no assertion is nested inside another's arguments); in
general a second pass can rewrite further. -/
theorem fix_float_rewrite_idempotent_when_cleared (s : String)
    (h : containsSubstr (fixFloatAssertions s) "TEST_ASSERT_EQUAL_FLOAT" = false) :
    fixFloatAssertions (fixFloatAssertions s) = fixFloatAssertions s := by
  unfold containsSubstr at h
  have hno := no_occurrence_of_hasSubstr_false (fixFloatAssertions s).data
    "TEST_ASSERT_EQUAL_FLOAT".data (by decide) h
  show String.mk (pySubEF _ (fixFloatAssertions s).data) = fixFloatAssertions s
  rw [pySubEF_id_of_no_occurrence _ _ hno]

/-- C7 amended witness: a single non-nested assertion is rewritten
once and a second pass changes nothing. -/
theorem fix_float_rewrite_idempotent_when_cleared_witness :
    fixFloatAssertions (fixFloatAssertions "TEST_ASSERT_EQUAL_FLOAT(x, y)") =
      fixFloatAssertions "TEST_ASSERT_EQUAL_FLOAT(x, y)" :=
  fix_float_rewrite_idempotent_when_cleared "TEST_ASSERT_EQUAL_FLOAT(x, y)"
    (by decide)

/-- `splitOnNl` never returns the empty list of lines. -/
theorem splitOnNl_ne_nil : ∀ cs : List Char, splitOnNl cs ≠ [] := by
  intro cs
  induction cs with
  | nil => simp [splitOnNl]
  | cons c rest ih =>
    unfold splitOnNl
    split
    · simp
    · cases h : splitOnNl rest with
      | nil => exact absurd h ih
      | cons l ls => simp

/-- Splitting at the first newline of a newline-free prefix. -/
theorem splitOnNl_append_nl (x y : List Char) (hx : ∀ c ∈ x, c ≠ '\n') :
    splitOnNl (x ++ '\n' :: y) = x :: splitOnNl y := by
  induction x with
  | nil => simp [splitOnNl]
  | cons c x' ih =>
    have hc : ¬(c = '\n') := hx c (List.mem_cons_self c x')
    have ih' := ih fun d hd => hx d (List.mem_cons_of_mem c hd)
    rw [List.cons_append]
    conv_lhs => unfold splitOnNl
    rw [if_neg hc, ih']

/-- The captured name of a test-function match is `test_` plus the
greedy word-character run. -/
theorem testFnTail_shape (r2 name after : List Char)
    (h : testFnTail r2 = some (name, after)) :
    name = "test_".data ++ r2.takeWhile isWordChar := by
  unfold testFnTail at h
  split_ifs at h
  all_goals
    first
      | exact Option.noConfusion h
      | (revert h
         split
         · intro h
           injection h with hp
           rw [Prod.mk.injEq] at hp
           exact hp.1.symm
         · intro h; exact Option.noConfusion h)

theorem tryMatchTestFn_shape (cs name after : List Char)
    (h : tryMatchTestFn cs = some (name, after)) :
    ∃ r2 : List Char, name = "test_".data ++ r2.takeWhile isWordChar := by
  unfold tryMatchTestFn at h
  split_ifs at h <;>
    first
      | exact Option.noConfusion h
      | exact ⟨_, testFnTail_shape _ _ _ h⟩

/-- A discovered test-function name contains no newline. -/
theorem testFnName_no_newline (cs name after : List Char)
    (h : tryMatchTestFn cs = some (name, after)) : ∀ c ∈ name, c ≠ '\n' := by
  obtain ⟨r2, hn⟩ := tryMatchTestFn_shape cs name after h
  intro c hc
  rw [hn, List.mem_append] at hc
  rcases hc with hc | hc
  · intro heq; subst heq; exact absurd hc (by decide)
  · have hall := List.all_takeWhile (p := isWordChar) (l := r2)
    rw [List.all_eq_true] at hall
    have hw := hall c hc
    intro heq; subst heq
    exact absurd hw (by decide)

/-- Names discovered by the runner scan contain no newline. -/
theorem findTestFnsLoop_names (fuel : Nat) :
    ∀ cs f, f ∈ findTestFnsLoop fuel cs → ∀ c ∈ f, c ≠ '\n' := by
  induction fuel with
  | zero => intro cs f hf; exact absurd hf (by simp [findTestFnsLoop])
  | succ n ih =>
    intro cs f hf
    cases cs with
    | nil => exact absurd hf (by simp [findTestFnsLoop])
    | cons c rest =>
      unfold findTestFnsLoop at hf
      revert hf
      cases hm : tryMatchTestFn (c :: rest) with
      | none => intro hf; exact ih rest f hf
      | some pr =>
        obtain ⟨name, after⟩ := pr
        intro hf
        rw [List.mem_cons] at hf
        rcases hf with hf | hf
        · subst hf
          exact testFnName_no_newline _ _ _ hm
        · exact ih after f hf

/-- A synthesized `RUN_TEST` line is never the runner's `int main`
line (they differ in their first characters). -/
theorem runLineChars_ne_mainLine (f : List Char) :
    runLineChars f ≠ mainLineChars := by
  intro heq
  have h4 : (runLineChars f).take 4 = "    ".data := rfl
  have h5 : mainLineChars.take 4 = "int ".data := by decide
  rw [heq, h5] at h4
  exact absurd h4 (by decide)

/-- A `RUN_TEST` piece is its newline-free line followed by a
newline. -/
theorem pieceChars_append (f X : List Char) :
    pieceChars f ++ X = runLineChars f ++ '\n' :: X := by
  unfold pieceChars runLineChars
  simp only [List.append_assoc]
  rfl

/-- Splitting the concatenated `RUN_TEST` pieces plus footer into
lines: one line per discovered test, then the footer lines. -/
theorem splitOnNl_runner_middle (fns : List (List Char))
    (h : ∀ f ∈ fns, ∀ c ∈ f, c ≠ '\n') :
    splitOnNl ((fns.map pieceChars).join ++ ftrChars) =
      fns.map runLineChars ++ splitOnNl ftrChars := by
  induction fns with
  | nil => simp
  | cons f fs ih =>
    have hf := h f (List.mem_cons_self f fs)
    have ih' := ih fun g hg => h g (List.mem_cons_of_mem f hg)
    have hx : ∀ c ∈ runLineChars f, c ≠ '\n' := by
      intro c hc
      unfold runLineChars at hc
      rw [List.append_assoc, List.mem_append] at hc
      rcases hc with hc | hc
      · exact (by decide : ∀ d ∈ ("    RUN_TEST(".data : List Char),
          d ≠ '\n') c hc
      · rw [List.mem_append] at hc
        rcases hc with hc | hc
        · exact hf c hc
        · exact (by decide : ∀ d ∈ ((");".data : List Char)), d ≠ '\n') c hc
    show splitOnNl ((pieceChars f ++ (fs.map pieceChars).join) ++ ftrChars) = _
    rw [List.append_assoc, pieceChars_append,
      splitOnNl_append_nl (runLineChars f) _ hx, ih']
    rfl

/-- The header lines of the synthesized runner. -/
theorem splitOnNl_header (rest : List Char) :
    splitOnNl (hdrChars ++ rest) =
      [] :: [] :: mainLineChars :: "    UNITY_BEGIN();".data :: [] ::
        splitOnNl rest := rfl

/-- The footer lines of the synthesized runner. -/
theorem splitOnNl_ftr :
    splitOnNl ftrChars = [[], "    return UNITY_END();".data, "\x7d".data] := by
  decide

/-- C8: when the findall discovers at least one `void test_*(` header,
exactly one runner is appended after the unchanged text; its lines are
the fixed `int main` / `UNITY_BEGIN` header, one `RUN_TEST` line per
discovered test name in discovery order, and the `UNITY_END` footer,
with the `int main(void) {` line occurring exactly once; with no
discovered test nothing is appended. -/
theorem test_runner_synthesis (s : String) :
    ((findTestFunctions s) ≠ [] →
      (addTestRunner s).data = s.data ++ runnerChars (findTestFunctions s) ∧
      splitOnNl (runnerChars (findTestFunctions s)) =
        [[], [], mainLineChars, "    UNITY_BEGIN();".data, []] ++
          (findTestFunctions s).map runLineChars ++
          [[], "    return UNITY_END();".data, "\x7d".data] ∧
      (splitOnNl (runnerChars (findTestFunctions s))).count mainLineChars = 1) ∧
    ((findTestFunctions s) = [] → addTestRunner s = s) := by
  constructor
  · intro hne
    have hempty : (findTestFunctions s).isEmpty = false := by
      rw [List.isEmpty_eq_false]; exact hne
    have hnames : ∀ f ∈ findTestFunctions s, ∀ c ∈ f, c ≠ '\n' :=
      fun f hf => findTestFnsLoop_names _ _ f hf
    have hlines : splitOnNl (runnerChars (findTestFunctions s)) =
        [[], [], mainLineChars, "    UNITY_BEGIN();".data, []] ++
          (findTestFunctions s).map runLineChars ++
          [[], "    return UNITY_END();".data, "\x7d".data] := by
      unfold runnerChars
      rw [List.append_assoc, splitOnNl_header,
        splitOnNl_runner_middle _ hnames, splitOnNl_ftr]
      simp only [List.append_assoc, List.cons_append, List.nil_append]
    refine ⟨?_, hlines, ?_⟩
    · unfold addTestRunner
      rw [hempty]
      simp
    · have hmid : (((findTestFunctions s).map runLineChars).count
          mainLineChars) = 0 := by
        rw [List.count_eq_zero]
        intro hmem
        rw [List.mem_map] at hmem
        obtain ⟨f, _, hfeq⟩ := hmem
        exact runLineChars_ne_mainLine f hfeq
      rw [hlines, List.count_append, List.count_append, hmid]
      decide
  · intro hempty
    unfold addTestRunner
    simp [hempty]

/-- C8 witness: two discovered tests produce a runner whose lines
contain the `int main(void) {` header exactly once. -/
theorem test_runner_synthesis_witness :
    (splitOnNl (runnerChars
      (findTestFunctions "void test_a(void);\nvoid test_b(void);"))).count
        mainLineChars = 1 :=
  ((test_runner_synthesis "void test_a(void);\nvoid test_b(void);").1
    (by decide)).2.2

/-- C10: `_get_functions_from_file` is not among the methods defined on
`CodeNavigator` (its intended body is dead code after the `return` of
`_find_all_c_files`), so `get_file_functions` raises `AttributeError`
for every path missing from `file_cache`, and only cache hits return a
function list. -/
theorem get_file_functions_missing_helper
    (file_cache : List (String × List FunctionSig)) (file_path : String) :
    codeNavigatorMethods.contains "_get_functions_from_file" = false ∧
    (file_cache.lookup file_path = none →
      get_file_functions file_cache file_path =
        Except.error (PyError.attributeError
          "'CodeNavigator' object has no attribute '_get_functions_from_file'")) ∧
    (∀ fns, file_cache.lookup file_path = some fns →
      get_file_functions file_cache file_path = Except.ok fns) := by
  refine ⟨by decide, ?_, ?_⟩
  · intro h
    unfold get_file_functions
    rw [h]
    rfl
  · intro fns h
    unfold get_file_functions
    rw [h]

/-- C10 witness: an empty cache always raises. -/
theorem get_file_functions_missing_helper_witness :
    get_file_functions [] "src/sensor.c" =
      Except.error (PyError.attributeError
        "'CodeNavigator' object has no attribute '_get_functions_from_file'") :=
  (get_file_functions_missing_helper [] "src/sensor.c").2.1 rfl

/-- C5 witness: a non-rate-limit error on the first attempt is
re-raised with no sleeps, and two straight rate-limit errors with
`max_retries = 2` sleep once (2 s) and then switch to the first
successful fallback model. -/
theorem generate_fallback_error_semantics_witness :
    try_generate_with_fallback (fun _ => Except.error "invalid API key")
        (fun _ => Except.ok "text") ["gemini-2.5-flash", "gemini-2.5-pro"]
        "gemini-2.5-flash" 3 =
      ⟨Except.error "invalid API key", []⟩ ∧
    try_generate_with_fallback (fun _ => Except.error "429 Too Many Requests")
        (fun _ => Except.ok "text") ["gemini-2.5-flash", "gemini-2.5-pro"]
        "gemini-2.5-flash" 2 =
      ⟨Except.ok ("text", "gemini-2.5-pro"), [2]⟩ := by
  constructor
  · exact (generate_fallback_error_semantics (fun _ => Except.error "invalid API key")
      (fun _ => Except.ok "text") ["gemini-2.5-flash", "gemini-2.5-pro"]
      "gemini-2.5-flash" 3).1 0 "invalid API key" (by omega)
      (by intro i hi; exact absurd hi (by omega)) rfl (by decide)
  · exact (generate_fallback_error_semantics (fun _ => Except.error "429 Too Many Requests")
      (fun _ => Except.ok "text") ["gemini-2.5-flash", "gemini-2.5-pro"]
      "gemini-2.5-flash" 2).2 (by omega)
      (by intro i _; exact ⟨"429 Too Many Requests", rfl, by decide⟩)
      "text" "gemini-2.5-pro" (by decide)

end AiCTestGen
